import Mathlib

/-!
Verification of the product REST API (Express/TypeScript) against its
specification.  The validation chains are embedded from `src/router.ts`;
the request handlers (`handlers/product.ts`) and the error-collecting
middleware (`middleware.ts`) are not part of the provided sources, so those
parts are modelled from the spec (sections 4.2-4.7 and 7).

JSON number literals in request bodies are modelled as integers (the
repository's bodies only carry integer literals) and stored prices as
exact rationals, so a validated decimal-string price keeps its exact
value.  The stock express-validator validators are embedded by their
source regexes — `isInt` is `[-+]?[0-9]+`, `isNumeric` (default options)
is `[+-]?([0-9]*[.])?[0-9]+`, `notEmpty` and `isBoolean` as documented —
and the `custom((value) => value > 0)` rule by JS semantics: for strings
this is the ToNumber coercion (whitespace trimming, optional sign,
`Infinity`, hex/octal/binary literals, decimal literals with optional
exponent) compared with zero.  The comparison is modelled on the exact
mathematical value of the literal; IEEE-754 rounding never changes the
sign of a literal's value except for subnormal underflow to zero
(`"1e-400"`), which is out of the model's scope.
-/

namespace ProductApi

/-- A JSON value as it can appear in a request body field: a string, a
number (modelled as an integer), or a boolean. -/
inductive JVal where
  | str (s : String)
  | num (n : Int)
  | bool (b : Bool)
deriving Repr, DecidableEq

/-- A request body for the product endpoints: each of the three fields is
present with some JSON value or absent (`none`, i.e. `undefined`). -/
structure Body where
  name : Option JVal
  price : Option JVal
  availability : Option JVal
deriving Repr, DecidableEq

/-- The character class `[0-9]` of the validator regexes (ASCII codes 48
to 57). -/
def isDig (c : Char) : Bool := decide (48 ≤ c.toNat ∧ c.toNat ≤ 57)

/-- Decimal digit characters of a natural number, most significant first,
with an explicit fuel argument so the definition is structurally recursive
and computable by the kernel.  `natDigitsAux (n+1) n` is total for `n`. -/
def natDigitsAux : Nat → Nat → List Char
  | 0, _ => []
  | fuel + 1, n =>
      if n < 10 then [Char.ofNat (48 + n)]
      else natDigitsAux fuel (n / 10) ++ [Char.ofNat (48 + n % 10)]

/-- Decimal digit characters of a natural number, most significant first. -/
def natDigits (n : Nat) : List Char := natDigitsAux (n + 1) n

/-- Decimal string of an integer, as JS `String(number)` renders an
integral number: a `-` sign for negatives, then the digits. -/
def intToStr (n : Int) : String :=
  if n < 0 then String.mk ('-' :: natDigits n.natAbs)
  else String.mk (natDigits n.natAbs)

/-- The string express-validator hands to its stock validators: `String(v)`
with `undefined`/`null` mapped to the empty string. -/
def toStr : Option JVal → String
  | none => ""
  | some (.str s) => s
  | some (.num n) => intToStr n
  | some (.bool b) => if b then "true" else "false"

/-- Character-list form of `validator.isInt` (default options, regex
`[-+]?[0-9]+`): an optional leading sign followed by a non-empty run of
decimal digits. -/
def isIntCharList : List Char → Bool
  | [] => false
  | c :: cs =>
      if c = '-' ∨ c = '+' then !cs.isEmpty && cs.all isDig
      else (c :: cs).all isDig

/-- The integer-string test of `param("id").isInt()`. -/
def isIntStr (s : String) : Bool := isIntCharList s.data

/-- Numeric value of a run of decimal digit characters. -/
def digitsVal (l : List Char) : Nat :=
  l.foldl (fun a c => a * 10 + (c.toNat - 48)) 0

/-- Integer value of a signed decimal string, the number a valid id
denotes (what the primary-key lookup receives). -/
def parseNum (s : String) : Int :=
  match s.data with
  | '-' :: rest => -(digitsVal rest : Int)
  | '+' :: rest => (digitsVal rest : Int)
  | l => (digitsVal l : Int)

/-- Strips one optional leading sign: `some true` for `-`, `some false`
for `+`, `none` when unsigned, together with the remaining characters. -/
def stripSign : List Char → Option Bool × List Char
  | '-' :: rest => (some true, rest)
  | '+' :: rest => (some false, rest)
  | l => (none, l)

/-- Core of `validator.isNumeric` (default options) after the optional
sign: the regex `([0-9]*[.])?[0-9]+` — digits, optionally ending in a dot
followed by at least one digit, with `seen` recording whether a digit was
read. -/
def numCore (seen : Bool) : List Char → Bool
  | [] => seen
  | c :: cs =>
      if isDig c then numCore true cs
      else if c = '.' then !cs.isEmpty && cs.all isDig
      else false

/-- The numeric-string test of `body("price").isNumeric()`: regex
`[+-]?([0-9]*[.])?[0-9]+`. -/
def isNumericStr (s : String) : Bool := numCore false (stripSign s.data).2

/-- The ECMAScript StrWhiteSpaceChar code points trimmed by ToNumber. -/
def jsWhitespace : List Nat :=
  [9, 10, 11, 12, 13, 32, 160, 5760, 8192, 8193, 8194, 8195, 8196, 8197,
   8198, 8199, 8200, 8201, 8202, 8232, 8233, 8239, 8287, 12288, 65279]

/-- Whether ToNumber trims this character. -/
def isJsSpace (c : Char) : Bool := decide (c.toNat ∈ jsWhitespace)

/-- The leading/trailing whitespace trimming ToNumber applies. -/
def trimJs (l : List Char) : List Char :=
  ((l.dropWhile isJsSpace).reverse.dropWhile isJsSpace).reverse

/-- A non-empty run of decimal digits. -/
def allDigits1 (l : List Char) : Bool := !l.isEmpty && l.all isDig

/-- The exponent digits of a JS decimal literal: `[+-]?[0-9]+`. -/
def signedDigits : List Char → Bool
  | '+' :: rest => allDigits1 rest
  | '-' :: rest => allDigits1 rest
  | l => allDigits1 l

/-- Fractional part of a JS decimal literal, then tests whether the whole
literal is well formed with a mantissa of strictly positive value:
`seen` records that a mantissa digit was read, `pos` that a nonzero one
was (ASCII 48 is the digit zero). -/
def postDotPos (seen pos : Bool) : List Char → Bool
  | [] => seen && pos
  | c :: cs =>
      if isDig c then postDotPos true (pos || c.toNat != 48) cs
      else (c = 'e' ∨ c = 'E') && seen && pos && signedDigits cs

/-- Integer part of a JS decimal literal
(`[0-9]+(.[0-9]*)?|.[0-9]+`, optional exponent), testing well-formedness
together with strict positivity of the denoted value: the value of
`mantissa * 10 ^ exponent` is positive exactly when some mantissa digit is
nonzero. -/
def preDotPos (seen pos : Bool) : List Char → Bool
  | [] => seen && pos
  | c :: cs =>
      if isDig c then preDotPos true (pos || c.toNat != 48) cs
      else if c = '.' then postDotPos seen pos cs
      else (c = 'e' ∨ c = 'E') && seen && pos && signedDigits cs

/-- Whether an unsigned JS decimal literal is well formed with a strictly
positive value. -/
def decPosLit (l : List Char) : Bool := preDotPos false false l

def isHexDig (c : Char) : Bool :=
  isDig c || decide (97 ≤ c.toNat ∧ c.toNat ≤ 102) ||
    decide (65 ≤ c.toNat ∧ c.toNat ≤ 70)

def isOctDig (c : Char) : Bool := decide (48 ≤ c.toNat ∧ c.toNat ≤ 55)

def isBinDig (c : Char) : Bool := c = '0' || c = '1'

/-- Whether a radix-prefixed JS integer literal tail is well formed with a
strictly positive value. -/
def radixPos (dig : Char → Bool) (rest : List Char) : Bool :=
  !rest.isEmpty && rest.all dig && rest.any (fun c => c != '0')

/-- Whether `Infinity` or an unsigned decimal literal denotes a positive
value (the grammar position where a sign was present, which ToNumber does
not allow before radix literals). -/
def infOrDecPos (l : List Char) : Bool :=
  if l = "Infinity".data then true else decPosLit l

/-- Whether an unsigned ToNumber literal — radix-prefixed, `Infinity` or
decimal — denotes a positive value. -/
def unsignedJsPos (l : List Char) : Bool :=
  if l.take 2 = ['0', 'x'] ∨ l.take 2 = ['0', 'X'] then
    radixPos isHexDig (l.drop 2)
  else if l.take 2 = ['0', 'o'] ∨ l.take 2 = ['0', 'O'] then
    radixPos isOctDig (l.drop 2)
  else if l.take 2 = ['0', 'b'] ∨ l.take 2 = ['0', 'B'] then
    radixPos isBinDig (l.drop 2)
  else infOrDecPos l

/-- The JS test `Number(s) > 0`: trim whitespace, handle the optional
sign (negative values and NaN both fail the test; a signed literal may
not be radix-prefixed), and test the literal's value for positivity. -/
def jsStrGt0 (s : String) : Bool :=
  match stripSign (trimJs s.data) with
  | (some true, _) => false
  | (some false, rest) => infOrDecPos rest
  | (none, rest) => unsignedJsPos rest

/-- The JS comparison `value > 0` performed by the custom price rule:
numbers compare directly, strings go through ToNumber, `true` coerces to
1, and `undefined` coerces to NaN, for which the comparison is false. -/
def jsGt0 : Option JVal → Bool
  | some (.num n) => 0 < n
  | some (.str s) => jsStrGt0 s
  | some (.bool b) => b
  | none => false

/-- The strings `validator.isBoolean` accepts (non-loose mode). -/
def isBooleanStr (s : String) : Bool :=
  s = "true" || s = "false" || s = "0" || s = "1"

def msgNameEmpty : String := "El nombre del producto no puede ir vacio"
def msgPriceNumeric : String := "Valor no válido"
def msgPriceEmpty : String := "El precio del producto no puede ir vacio"
def msgPricePositive : String := "Precio no válido"
def msgAvailabilityInvalid : String := "Valor para disponibilidad no válido"
def msgIdInvalid : String := "ID no válido"
def msgNotFound : String := "Producto no encontrado"
def msgDeleted : String := "Producto Eliminado"

/-- Errors of the chain `body("name").notEmpty().withMessage(...)` from
`router.ts`. -/
def nameErrors (b : Body) : List String :=
  if toStr b.name = "" then [msgNameEmpty] else []

/-- Errors of the chain `body("price").isNumeric().withMessage(...)
.notEmpty().withMessage(...).custom((value) => value > 0).withMessage(...)`
from `router.ts`; the three rules are evaluated independently and every
failure is collected, in declaration order. -/
def priceErrors (b : Body) : List String :=
  (if isNumericStr (toStr b.price) then [] else [msgPriceNumeric]) ++
  (if toStr b.price = "" then [msgPriceEmpty] else []) ++
  (if jsGt0 b.price then [] else [msgPricePositive])

/-- Errors of the chain `body("availability").isBoolean().withMessage(...)`
from `router.ts`. -/
def availabilityErrors (b : Body) : List String :=
  if isBooleanStr (toStr b.availability) then [] else [msgAvailabilityInvalid]

/-- Errors of the chain `param("id").isInt().withMessage("ID no válido")`
from `router.ts`. -/
def idErrors (idStr : String) : List String :=
  if isIntStr idStr then [] else [msgIdInvalid]

/-- A stored product row: auto-increment primary key `id`, `name`, `price`
and `availability`. -/
structure Product where
  id : Int
  name : String
  price : ℚ
  availability : Bool
deriving Repr, DecidableEq

/-- The product store: the table rows in insertion order plus the
auto-increment counter for the next primary key. -/
structure Store where
  products : List Product
  nextId : Int
deriving Repr, DecidableEq

/-- A response body: a validation-error list (`{errors}`), a single error
message (`{error}`), or a `{data}` payload holding a product, a product
list, or a string. -/
inductive RespBody where
  | errors (msgs : List String)
  | errorMsg (s : String)
  | dataProduct (p : Product)
  | dataList (ps : List Product)
  | dataStr (s : String)
deriving Repr, DecidableEq

/-- An HTTP response: status code and body. -/
structure HttpResponse where
  status : Nat
  body : RespBody
deriving Repr, DecidableEq

/-- Primary-key lookup (`Product.findByPk`). -/
def lookup (st : Store) (i : Int) : Option Product :=
  st.products.find? (fun p => p.id == i)

/-- Modelled from the spec: the list-products handler (`getProducts`,
spec 4.2) returns every stored product in insertion order, status 200. -/
def getProducts (st : Store) : HttpResponse × Store :=
  (⟨200, .dataList st.products⟩, st)

/-- GET /api/products/:id — the id validation chain from `router.ts`,
then, modelled from the spec: the `getProductById` handler (spec 4.3)
looks the id up and answers 404 `Producto no encontrado` or 200 with the
product.  The middleware `handleInputErrors` (spec 4.1, also absent from
the sources) answers 400 with the collected errors when any rule failed
and otherwise passes control to the handler. -/
def getProductById (st : Store) (idStr : String) : HttpResponse × Store :=
  let errs := idErrors idStr
  if errs = [] then
    match lookup st (parseNum idStr) with
    | none => (⟨404, .errorMsg msgNotFound⟩, st)
    | some p => (⟨200, .dataProduct p⟩, st)
  else (⟨400, .errors errs⟩, st)

/-- Value contributed by one fractional digit run of a decimal literal:
each character weighs a tenth of its digit value plus a tenth of what
follows. -/
def fracVal : List Char → ℚ
  | [] => 0
  | c :: cs => ((c.toNat - 48 : ℕ) : ℚ) / 10 + fracVal cs / 10

/-- Accumulating value of the integer part of a decimal literal, switching
to the fractional part at the dot. -/
def decCoreAux (acc : ℚ) : List Char → ℚ
  | [] => acc
  | c :: cs =>
      if isDig c then decCoreAux (acc * 10 + ((c.toNat - 48 : ℕ) : ℚ)) cs
      else if c = '.' then acc + fracVal cs
      else acc

/-- Exact value of an unsigned decimal literal. -/
def decCore (l : List Char) : ℚ := decCoreAux 0 l

/-- Exact value of a validated decimal string price — the number the
store persists for it. -/
def decStrVal (s : String) : ℚ :=
  match stripSign s.data with
  | (some true, rest) => -(decCore rest)
  | (_, rest) => decCore rest

/-- Extraction of the numeric value of a validated price field. -/
def priceVal : Option JVal → ℚ
  | some (.num n) => (n : ℚ)
  | some (.str s) => decStrVal s
  | _ => 0

/-- Extraction of the boolean value of a validated availability field. -/
def availVal : Option JVal → Bool
  | some (.bool b) => b
  | some (.str s) => s = "true" || s = "1"
  | _ => false

/-- POST /api/products — the name and price validation chains from
`router.ts`, then, modelled from the spec: the `createProduct` handler
(spec 4.4) assigns the next auto-increment id, sets `availability = true`,
persists and answers 201 with the new record. -/
def createProduct (st : Store) (b : Body) : HttpResponse × Store :=
  let errs := nameErrors b ++ priceErrors b
  if errs = [] then
    let p : Product := ⟨st.nextId, toStr b.name, priceVal b.price, true⟩
    (⟨201, .dataProduct p⟩, ⟨st.products ++ [p], st.nextId + 1⟩)
  else (⟨400, .errors errs⟩, st)

/-- PUT /api/products/:id — the id, name, price and availability
validation chains from `router.ts` in declaration order, then, modelled
from the spec: the `updateProduct` handler (spec 4.5) answers 404 when the
id is absent and otherwise overwrites name, price and availability on the
existing record, never altering the id, and answers 200 with it. -/
def updateProduct (st : Store) (idStr : String) (b : Body) :
    HttpResponse × Store :=
  let errs := idErrors idStr ++ nameErrors b ++ priceErrors b ++
    availabilityErrors b
  if errs = [] then
    let i := parseNum idStr
    match lookup st i with
    | none => (⟨404, .errorMsg msgNotFound⟩, st)
    | some p =>
        let p' : Product := ⟨p.id, toStr b.name, priceVal b.price,
          availVal b.availability⟩
        (⟨200, .dataProduct p'⟩,
         ⟨st.products.map (fun q => if q.id == i then p' else q),
          st.nextId⟩)
  else (⟨400, .errors errs⟩, st)

/-- The persisted effect of the availability toggle on one table row: the
row with the matched primary key gets its availability complemented, every
other row is untouched. -/
def toggleRow (i : Int) (q : Product) : Product :=
  if q.id == i then { q with availability := !q.availability } else q

/-- PATCH /api/products/:id — the id validation chain from `router.ts`,
then, modelled from the spec: the `updateAvailability` handler (spec 4.6)
ignores the body, answers 404 when the id is absent, and otherwise flips
`availability` to its boolean complement, changes nothing else, and
answers 200 with the updated record. -/
def updateAvailability (st : Store) (idStr : String) :
    HttpResponse × Store :=
  let errs := idErrors idStr
  if errs = [] then
    let i := parseNum idStr
    match lookup st i with
    | none => (⟨404, .errorMsg msgNotFound⟩, st)
    | some p =>
        (⟨200, .dataProduct { p with availability := !p.availability }⟩,
         ⟨st.products.map (toggleRow i), st.nextId⟩)
  else (⟨400, .errors errs⟩, st)

/-- DELETE /api/products/:id — the id validation chain from `router.ts`,
then, modelled from the spec: the `deleteProduct` handler (spec 4.7)
answers 404 when the id is absent and otherwise removes the record
permanently (hard delete) and answers 200 with `Producto Eliminado`. -/
def deleteProduct (st : Store) (idStr : String) : HttpResponse × Store :=
  let errs := idErrors idStr
  if errs = [] then
    let i := parseNum idStr
    match lookup st i with
    | none => (⟨404, .errorMsg msgNotFound⟩, st)
    | some _ =>
        (⟨200, .dataStr msgDeleted⟩,
         ⟨st.products.filter (fun q => !(q.id == i)), st.nextId⟩)
  else (⟨400, .errors errs⟩, st)

/-- The store invariant of spec section 3: every stored price is positive,
every stored id is below the auto-increment counter (so a fresh id is
never a reuse), and stored ids are pairwise distinct. -/
def Inv (st : Store) : Prop :=
  (∀ p ∈ st.products, 0 < p.price) ∧
  (∀ p ∈ st.products, p.id < st.nextId) ∧
  st.products.Pairwise (fun p q => p.id ≠ q.id)

/-- A character built from a digit value is a decimal digit. -/
theorem isDigit_digitChar (d : Nat) (h : d < 10) :
    isDig (Char.ofNat (48 + d)) = true := by
  interval_cases d <;> decide

/-- Code of a character built from a digit value. -/
theorem toNat_digitChar (d : Nat) (h : d < 10) :
    (Char.ofNat (48 + d)).toNat = 48 + d := by
  interval_cases d <;> decide

/-- Every character `natDigitsAux` produces is a decimal digit. -/
theorem natDigitsAux_all_digit (fuel n : Nat) :
    (natDigitsAux fuel n).all isDig = true := by
  induction fuel generalizing n with
  | zero => rfl
  | succ fuel ih =>
      rw [natDigitsAux]
      by_cases h : n < 10
      · simp [h, isDigit_digitChar n h]
      · simp [h, List.all_append, ih,
          isDigit_digitChar (n % 10) (Nat.mod_lt _ (by omega))]

/-- With positive fuel, `natDigitsAux` produces at least one character. -/
theorem natDigitsAux_ne_nil (fuel n : Nat) (h : fuel ≠ 0) :
    natDigitsAux fuel n ≠ [] := by
  cases fuel with
  | zero => exact absurd rfl h
  | succ fuel =>
      rw [natDigitsAux]
      by_cases h10 : n < 10 <;> simp [h10]

/-- Appending one digit multiplies the accumulated value by ten. -/
theorem digitsVal_append_digit (l : List Char) (c : Char) :
    digitsVal (l ++ [c]) = digitsVal l * 10 + (c.toNat - 48) := by
  simp [digitsVal, List.foldl_append]

/-- `digitsVal` inverts `natDigitsAux` when the fuel suffices. -/
theorem digitsVal_natDigitsAux (fuel n : Nat) (h : n < fuel) :
    digitsVal (natDigitsAux fuel n) = n := by
  induction fuel generalizing n with
  | zero => omega
  | succ fuel ih =>
      rw [natDigitsAux]
      by_cases h10 : n < 10
      · rw [if_pos h10, digitsVal]
        simp only [List.foldl_cons, List.foldl_nil, toNat_digitChar n h10]
        omega
      · have hlt : n / 10 < fuel := by omega
        rw [if_neg h10, digitsVal_append_digit, ih _ hlt,
          toNat_digitChar (n % 10) (Nat.mod_lt _ (by omega))]
        omega

/-- Every character of `natDigits n` is a decimal digit. -/
theorem natDigits_all_digit (n : Nat) :
    (natDigits n).all isDig = true :=
  natDigitsAux_all_digit (n + 1) n

/-- `natDigits` never produces the empty list. -/
theorem natDigits_ne_nil (n : Nat) : natDigits n ≠ [] :=
  natDigitsAux_ne_nil (n + 1) n (by omega)

/-- `digitsVal` inverts `natDigits`. -/
theorem digitsVal_natDigits (n : Nat) : digitsVal (natDigits n) = n :=
  digitsVal_natDigitsAux (n + 1) n (by omega)

/-- A decimal digit is not the minus sign. -/
theorem dash_not_digit {c : Char} (h : isDig c = true) : ¬(c = '-') := by
  intro e
  subst e
  exact absurd h (by decide)

/-- A decimal digit is not the plus sign. -/
theorem plus_not_digit {c : Char} (h : isDig c = true) : ¬(c = '+') := by
  intro e
  subst e
  exact absurd h (by decide)

/-- A non-empty all-digit character list passes the integer-string test. -/
theorem isIntCharList_of_digits (l : List Char) (hne : l ≠ [])
    (hd : l.all isDig = true) : isIntCharList l = true := by
  cases l with
  | nil => exact absurd rfl hne
  | cons c cs =>
      have hc : isDig c = true := List.all_eq_true.mp hd c (by simp)
      rw [isIntCharList,
        if_neg (fun e => e.elim (dash_not_digit hc) (plus_not_digit hc))]
      exact hd

/-- The decimal rendering of every integer passes `isInt` validation. -/
theorem isIntStr_intToStr (n : Int) : isIntStr (intToStr n) = true := by
  rw [intToStr]
  by_cases h : n < 0
  · rw [if_pos h]
    show isIntCharList ('-' :: natDigits n.natAbs) = true
    rw [isIntCharList, if_pos (Or.inl rfl)]
    cases hl : natDigits n.natAbs with
    | nil => exact absurd hl (natDigits_ne_nil _)
    | cons c cs =>
        have := natDigits_all_digit n.natAbs
        rw [hl] at this
        simp [this]
  · rw [if_neg h]
    exact isIntCharList_of_digits _ (natDigits_ne_nil _) (natDigits_all_digit _)

/-- Parsing a string of pure digits yields its digit value. -/
theorem parseNum_mk_digits (l : List Char) (hd : l.all isDig = true) :
    parseNum (String.mk l) = (digitsVal l : Int) := by
  cases l with
  | nil => rfl
  | cons c cs =>
      have hc : isDig c = true := List.all_eq_true.mp hd c (by simp)
      unfold parseNum
      split
      next rest heq =>
        have hcc : c = '-' := by
          have h2 := congrArg (fun l => List.head? l) heq
          simpa using h2
        exact absurd hcc (dash_not_digit hc)
      next rest heq =>
        have hcc : c = '+' := by
          have h2 := congrArg (fun l => List.head? l) heq
          simpa using h2
        exact absurd hcc (plus_not_digit hc)
      next => rfl

/-- `parseNum` inverts `intToStr`: the id validation and lookup agree on
which integer a rendered id denotes. -/
theorem parseNum_intToStr (n : Int) : parseNum (intToStr n) = n := by
  rw [intToStr]
  by_cases h : n < 0
  · rw [if_pos h]
    have hred : parseNum (String.mk ('-' :: natDigits n.natAbs)) =
        -(digitsVal (natDigits n.natAbs) : Int) := rfl
    rw [hred, digitsVal_natDigits]
    omega
  · rw [if_neg h, parseNum_mk_digits _ (natDigits_all_digit _),
      digitsVal_natDigits]
    omega

/-- The decimal rendering of an integer is never the empty string. -/
theorem intToStr_ne_empty (n : Int) : intToStr n ≠ "" := by
  rw [intToStr]
  intro heq
  by_cases h : n < 0
  · rw [if_pos h] at heq
    exact absurd (congrArg String.data heq) (by simp)
  · rw [if_neg h] at heq
    exact absurd (congrArg String.data heq) (by simpa using natDigits_ne_nil n.natAbs)

/-- Sign stripping is the identity on lists not starting with a sign. -/
theorem stripSign_other (c : Char) (cs : List Char) (h1 : ¬c = '-')
    (h2 : ¬c = '+') : stripSign (c :: cs) = (none, c :: cs) := by
  unfold stripSign
  split
  next rest heq =>
    have hcc : c = '-' := by
      have h3 := congrArg (fun l => List.head? l) heq
      simpa using h3
    exact absurd hcc h1
  next rest heq =>
    have hcc : c = '+' := by
      have h3 := congrArg (fun l => List.head? l) heq
      simpa using h3
    exact absurd hcc h2
  next => rfl

/-- A run of digits, non-empty unless a digit was already seen, passes the
numeric-core test. -/
theorem numCore_of_digits : ∀ (l : List Char) (seen : Bool),
    l.all isDig = true → (l = [] → seen = true) → numCore seen l = true := by
  intro l
  induction l with
  | nil =>
      intro seen _ hs
      exact hs rfl
  | cons c cs ih =>
      intro seen hall _
      rw [List.all_cons, Bool.and_eq_true] at hall
      rw [numCore, if_pos hall.1]
      exact ih true hall.2 (fun _ => rfl)

/-- The decimal rendering of every integer passes `isNumeric` validation. -/
theorem isNumericStr_intToStr (n : Int) : isNumericStr (intToStr n) = true := by
  rw [isNumericStr, intToStr]
  by_cases h : n < 0
  · rw [if_pos h]
    show numCore false (natDigits n.natAbs) = true
    exact numCore_of_digits _ false (natDigits_all_digit _)
      (fun he => absurd he (natDigits_ne_nil _))
  · rw [if_neg h]
    cases hl : natDigits n.natAbs with
    | nil => exact absurd hl (natDigits_ne_nil _)
    | cons c cs =>
        have hall := natDigits_all_digit n.natAbs
        rw [hl] at hall
        have hc : isDig c = true := List.all_eq_true.mp hall c (by simp)
        show numCore false (stripSign (c :: cs)).2 = true
        rw [stripSign_other c cs (dash_not_digit hc) (plus_not_digit hc)]
        exact numCore_of_digits _ false hall
          (fun he => absurd he (List.cons_ne_nil c cs))

/-- A decimal digit is not a ToNumber whitespace character. -/
theorem isJsSpace_false_of_isDig {c : Char} (h : isDig c = true) :
    isJsSpace c = false := by
  have hb := of_decide_eq_true h
  rw [isJsSpace]
  apply decide_eq_false
  intro hmem
  rw [jsWhitespace] at hmem
  simp only [List.mem_cons, List.not_mem_nil, or_false] at hmem
  omega

/-- Dropping by a predicate that holds nowhere drops nothing. -/
theorem dropWhile_eq_self_of_all (p : Char → Bool) (l : List Char)
    (h : ∀ c ∈ l, p c = false) : l.dropWhile p = l := by
  cases l with
  | nil => rfl
  | cons c cs =>
      rw [List.dropWhile_cons, h c (List.mem_cons_self c cs)]
      simp

/-- Trimming a string with no whitespace is the identity. -/
theorem trimJs_eq_self (l : List Char) (h : ∀ c ∈ l, isJsSpace c = false) :
    trimJs l = l := by
  unfold trimJs
  rw [dropWhile_eq_self_of_all _ _ h,
    dropWhile_eq_self_of_all _ _ (fun c hc => h c (List.mem_reverse.mp hc)),
    List.reverse_reverse]

/-- Every character of a string passing the numeric-core test is a digit
or the decimal dot. -/
theorem numCore_chars : ∀ (l : List Char) (seen : Bool),
    numCore seen l = true → ∀ c ∈ l, isDig c = true ∨ c = '.' := by
  intro l
  induction l with
  | nil =>
      intro seen _ c hc
      exact absurd hc (List.not_mem_nil c)
  | cons c0 cs ih =>
      intro seen hn c hc
      rw [numCore] at hn
      by_cases hd : isDig c0 = true
      · rw [if_pos hd] at hn
        rcases List.mem_cons.mp hc with rfl | hc2
        · exact Or.inl hd
        · exact ih true hn c hc2
      · rw [if_neg hd] at hn
        by_cases hdot : c0 = '.'
        · rw [if_pos hdot, Bool.and_eq_true] at hn
          rcases List.mem_cons.mp hc with rfl | hc2
          · exact Or.inr hdot
          · exact Or.inl (List.all_eq_true.mp hn.2 c hc2)
        · rw [if_neg hdot] at hn
          cases hn

/-- A string passing the numeric-core test contains no whitespace. -/
theorem no_space_of_numCore (l : List Char) (h : numCore false l = true) :
    ∀ c ∈ l, isJsSpace c = false := by
  intro c hc
  rcases numCore_chars l false h c hc with hd | hd
  · exact isJsSpace_false_of_isDig hd
  · subst hd
    decide

/-- A list whose first two elements are known starts with them. -/
theorem take2_shape (l : List Char) (a b : Char) (h : l.take 2 = [a, b]) :
    ∃ t, l = a :: b :: t := by
  cases l with
  | nil => simp [List.take] at h
  | cons x xs =>
      cases xs with
      | nil => simp [List.take] at h
      | cons y ys =>
          have h2 : x = a ∧ y = b ∧ True := by simpa [List.take] using h
          exact ⟨ys, by rw [h2.1, h2.2.1]⟩

/-- A zero followed by a non-digit non-dot character fails the
numeric-core test. -/
theorem numCore_cons2_false (c2 : Char) (t : List Char)
    (h2 : isDig c2 = false) (h3 : ¬c2 = '.') :
    numCore false ('0' :: c2 :: t) = false := by
  rw [numCore, if_pos (by decide : isDig '0' = true), numCore, h2,
    if_neg (by simp), if_neg h3]

/-- On strings passing `isNumeric`, the unsigned ToNumber positivity test
is the decimal-literal one (such strings are never radix-prefixed). -/
theorem unsignedJsPos_of_numCore (l : List Char)
    (h : numCore false l = true) : unsignedJsPos l = decPosLit l := by
  have hno : ∀ (c2 : Char), isDig c2 = false → ¬c2 = '.' →
      ¬(l.take 2 = ['0', c2]) := by
    intro c2 hc2 hc3 htake
    obtain ⟨t, rfl⟩ := take2_shape l '0' c2 htake
    rw [numCore_cons2_false c2 t hc2 hc3] at h
    cases h
  have hinf : ¬(l = "Infinity".data) := by
    intro he
    rw [he] at h
    exact absurd h (by decide)
  rw [unsignedJsPos,
    if_neg (fun hx => hx.elim (hno _ (by decide) (by decide))
      (hno _ (by decide) (by decide))),
    if_neg (fun hx => hx.elim (hno _ (by decide) (by decide))
      (hno _ (by decide) (by decide))),
    if_neg (fun hx => hx.elim (hno _ (by decide) (by decide))
      (hno _ (by decide) (by decide))),
    infOrDecPos, if_neg hinf]

/-- A trimmed string starting with a minus fails the positivity test. -/
theorem jsStrGt0_neg (s : String) (rest : List Char)
    (h : trimJs s.data = '-' :: rest) : jsStrGt0 s = false := by
  unfold jsStrGt0
  rw [h]
  rfl

/-- A trimmed string starting with a plus tests its tail as a signed
literal position. -/
theorem jsStrGt0_plus (s : String) (rest : List Char)
    (h : trimJs s.data = '+' :: rest) : jsStrGt0 s = infOrDecPos rest := by
  unfold jsStrGt0
  rw [h]
  rfl

/-- A trimmed unsigned string tests itself as an unsigned literal. -/
theorem jsStrGt0_unsigned (s : String) (l : List Char)
    (h : trimJs s.data = l) (hss : stripSign l = (none, l)) :
    jsStrGt0 s = unsignedJsPos l := by
  unfold jsStrGt0
  rw [h, hss]

/-- A fractional digit run never contributes a negative value. -/
theorem fracVal_nonneg (l : List Char) : 0 ≤ fracVal l := by
  induction l with
  | nil => exact le_refl 0
  | cons c cs ih =>
      rw [fracVal]
      exact add_nonneg (div_nonneg (Nat.cast_nonneg _) (by norm_num))
        (div_nonneg ih (by norm_num))

/-- A fractional digit run with a nonzero digit has positive value. -/
theorem fracVal_pos (l : List Char) (hall : l.all isDig = true)
    (hany : l.any (fun c => c.toNat != 48) = true) : 0 < fracVal l := by
  induction l with
  | nil => cases hany
  | cons c cs ih =>
      rw [List.all_cons, Bool.and_eq_true] at hall
      rw [List.any_cons, Bool.or_eq_true] at hany
      rw [fracVal]
      rcases hany with hc | hcs
      · have hb := of_decide_eq_true hall.1
        have h48 : c.toNat ≠ 48 := by simpa using hc
        have h1 : (0:ℚ) < ((c.toNat - 48 : ℕ) : ℚ) := by
          have hge : 1 ≤ c.toNat - 48 := by omega
          exact_mod_cast Nat.lt_of_lt_of_le Nat.zero_lt_one hge
        exact add_pos_of_pos_of_nonneg (div_pos h1 (by norm_num))
          (div_nonneg (fracVal_nonneg cs) (by norm_num))
      · exact add_pos_of_nonneg_of_pos
          (div_nonneg (Nat.cast_nonneg _) (by norm_num))
          (div_pos (ih hall.2 hcs) (by norm_num))

/-- An accepted fractional part either inherited a nonzero mantissa digit
or contains one. -/
theorem postDot_pos_extract : ∀ (l : List Char) (seen pos : Bool),
    l.all isDig = true → postDotPos seen pos l = true →
    pos = true ∨ l.any (fun c => c.toNat != 48) = true := by
  intro l
  induction l with
  | nil =>
      intro seen pos _ h
      rw [postDotPos, Bool.and_eq_true] at h
      exact Or.inl h.2
  | cons c cs ih =>
      intro seen pos hall h
      rw [List.all_cons, Bool.and_eq_true] at hall
      rw [postDotPos, if_pos hall.1] at h
      rcases ih true (pos || c.toNat != 48) hall.2 h with h2 | h2
      · rw [Bool.or_eq_true] at h2
        rcases h2 with h3 | h3
        · exact Or.inl h3
        · refine Or.inr ?_
          rw [List.any_cons, h3]
          rfl
      · refine Or.inr ?_
        rw [List.any_cons, h2]
        simp

/-- After the dot of an accepted positive literal, the accumulated integer
part plus the fractional value is positive. -/
theorem postDot_val_pos (cs : List Char) (seen pos : Bool) (acc : ℚ)
    (hacc : 0 ≤ acc) (hpos : pos = true → 0 < acc)
    (hall : cs.all isDig = true)
    (hpd : postDotPos seen pos cs = true) :
    0 < acc + fracVal cs := by
  rcases postDot_pos_extract cs seen pos hall hpd with h | h
  · exact add_pos_of_pos_of_nonneg (hpos h) (fracVal_nonneg cs)
  · exact add_pos_of_nonneg_of_pos hacc (fracVal_pos cs hall h)

/-- Core positivity transfer: a string accepted by `isNumeric` whose
ToNumber value tests positive evaluates to a positive rational. -/
theorem decCoreAux_pos : ∀ (l : List Char) (seen pos : Bool) (acc : ℚ),
    0 ≤ acc → (pos = true → 0 < acc) →
    numCore seen l = true → preDotPos seen pos l = true →
    0 < decCoreAux acc l := by
  intro l
  induction l with
  | nil =>
      intro seen pos acc _ hpos _ hp
      rw [preDotPos, Bool.and_eq_true] at hp
      rw [decCoreAux]
      exact hpos hp.2
  | cons c cs ih =>
      intro seen pos acc hacc hpos hn hp
      rw [numCore] at hn
      rw [preDotPos] at hp
      rw [decCoreAux]
      by_cases hd : isDig c = true
      · rw [if_pos hd] at hn hp ⊢
        refine ih true (pos || c.toNat != 48)
          (acc * 10 + ((c.toNat - 48 : ℕ) : ℚ)) ?_ ?_ hn hp
        · exact add_nonneg (mul_nonneg hacc (by norm_num))
            (Nat.cast_nonneg _)
        · intro hp2
          rw [Bool.or_eq_true] at hp2
          rcases hp2 with h3 | h3
          · exact add_pos_of_pos_of_nonneg
              (mul_pos (hpos h3) (by norm_num)) (Nat.cast_nonneg _)
          · have hb := of_decide_eq_true hd
            have h48 : c.toNat ≠ 48 := by simpa using h3
            have h1 : (0:ℚ) < ((c.toNat - 48 : ℕ) : ℚ) := by
              have hge : 1 ≤ c.toNat - 48 := by omega
              exact_mod_cast Nat.lt_of_lt_of_le Nat.zero_lt_one hge
            exact add_pos_of_nonneg_of_pos
              (mul_nonneg hacc (by norm_num)) h1
      · rw [if_neg hd] at hn hp ⊢
        by_cases hdot : c = '.'
        · rw [if_pos hdot] at hn hp ⊢
          rw [Bool.and_eq_true] at hn
          exact postDot_val_pos cs seen pos acc hacc hpos hn.2 hp
        · rw [if_neg hdot] at hn
          cases hn

/-- A string price accepted by the numeric rule and by the positivity rule
denotes a positive stored value. -/
theorem decStrVal_pos (s : String) (hn : isNumericStr s = true)
    (hg : jsStrGt0 s = true) : 0 < decStrVal s := by
  rcases hd : s.data with _ | ⟨c, rest⟩
  · rw [isNumericStr, hd] at hn
    exact absurd hn (by decide)
  · rw [isNumericStr, hd] at hn
    by_cases hc1 : c = '-'
    · subst hc1
      have hn' : numCore false rest = true := hn
      have htrim : trimJs s.data = '-' :: rest := by
        rw [hd]
        refine trimJs_eq_self _ ?_
        intro x hx
        rcases List.mem_cons.mp hx with rfl | hx2
        · decide
        · exact no_space_of_numCore rest hn' x hx2
      rw [jsStrGt0_neg s rest htrim] at hg
      cases hg
    · by_cases hc2 : c = '+'
      · subst hc2
        have hn' : numCore false rest = true := hn
        have htrim : trimJs s.data = '+' :: rest := by
          rw [hd]
          refine trimJs_eq_self _ ?_
          intro x hx
          rcases List.mem_cons.mp hx with rfl | hx2
          · decide
          · exact no_space_of_numCore rest hn' x hx2
        rw [jsStrGt0_plus s rest htrim] at hg
        have hinf : ¬(rest = "Infinity".data) := by
          intro he
          rw [he] at hn'
          exact absurd hn' (by decide)
        rw [infOrDecPos, if_neg hinf] at hg
        have hval : 0 < decCore rest :=
          decCoreAux_pos rest false false 0 (le_refl 0)
            (fun h => by cases h) hn' hg
        have hds : decStrVal s = decCore rest := by
          unfold decStrVal
          rw [hd]
          rfl
        rw [hds]
        exact hval
      · have hss : stripSign (c :: rest) = (none, c :: rest) :=
          stripSign_other c rest hc1 hc2
        have hn' : numCore false (c :: rest) = true := by
          rw [hss] at hn
          exact hn
        have htrim : trimJs s.data = c :: rest := by
          rw [hd]
          exact trimJs_eq_self _ (no_space_of_numCore _ hn')
        rw [jsStrGt0_unsigned s (c :: rest) htrim hss,
          unsignedJsPos_of_numCore _ hn'] at hg
        have hval : 0 < decCore (c :: rest) :=
          decCoreAux_pos _ false false 0 (le_refl 0)
            (fun h => by cases h) hn' hg
        have hds : decStrVal s = decCore (c :: rest) := by
          unfold decStrVal
          rw [hd, hss]
        rw [hds]
        exact hval

/-- An if-then-else producing the empty list forces its condition. -/
theorem cond_of_ite_nil {c : Prop} [Decidable c] {m : String}
    (h : (if c then ([] : List String) else [m]) = []) : c := by
  by_cases hc : c
  · exact hc
  · rw [if_neg hc] at h
    cases h

/-- An empty name-error list means the name field is non-empty. -/
theorem nameErrors_nil_iff (b : Body) :
    nameErrors b = [] ↔ toStr b.name ≠ "" := by
  constructor
  · intro h
    rw [nameErrors] at h
    by_cases hc : toStr b.name = ""
    · rw [if_pos hc] at h
      cases h
    · exact hc
  · intro h
    rw [nameErrors, if_neg h]

/-- An empty price-error list means all three price rules pass. -/
theorem priceErrors_nil (b : Body) (h : priceErrors b = []) :
    isNumericStr (toStr b.price) = true ∧ toStr b.price ≠ "" ∧
      jsGt0 b.price = true := by
  rw [priceErrors] at h
  rw [List.append_eq_nil, List.append_eq_nil] at h
  obtain ⟨⟨h1, h2⟩, h3⟩ := h
  refine ⟨cond_of_ite_nil h1, ?_, cond_of_ite_nil h3⟩
  intro hne
  rw [if_pos hne] at h2
  cases h2

/-- A price accepted by the validation chain has positive numeric value. -/
theorem priceVal_pos (b : Body) (h : priceErrors b = []) :
    0 < priceVal b.price := by
  obtain ⟨h1, _h2, h3⟩ := priceErrors_nil b h
  rcases hb : b.price with _ | v
  · rw [hb] at h1
    exact absurd h1 (by decide)
  · cases v with
    | str s =>
        rw [hb] at h1 h3
        simp only [toStr] at h1
        rw [jsGt0] at h3
        rw [priceVal]
        exact decStrVal_pos s h1 h3
    | num n =>
        rw [hb] at h3
        rw [jsGt0, decide_eq_true_eq] at h3
        rw [priceVal]
        exact_mod_cast h3
    | bool bb =>
        rw [hb] at h1
        cases bb <;> exact absurd h1 (by decide)

/-- An integer id string produces no id-validation errors. -/
theorem idErrors_nil (idStr : String) (h : isIntStr idStr = true) :
    idErrors idStr = [] := by
  rw [idErrors, if_pos h]

/-- Mapping an id-preserving function leaves the id column unchanged. -/
theorem map_id_of_preserve (l : List Product) (f : Product → Product)
    (hid : ∀ q ∈ l, (f q).id = q.id) :
    (l.map f).map Product.id = l.map Product.id := by
  rw [List.map_map]
  exact List.map_congr_left fun a ha => hid a ha

/-- The store invariant survives an id-preserving map whose results keep
positive prices. -/
theorem inv_map (st : Store) (h : Inv st) (f : Product → Product)
    (hid : ∀ q ∈ st.products, (f q).id = q.id)
    (hpr : ∀ q ∈ st.products, 0 < (f q).price) :
    Inv ⟨st.products.map f, st.nextId⟩ := by
  obtain ⟨h1, h2, h3⟩ := h
  refine ⟨?_, ?_, ?_⟩
  · intro p hp
    rw [List.mem_map] at hp
    obtain ⟨q, hq, rfl⟩ := hp
    exact hpr q hq
  · intro p hp
    rw [List.mem_map] at hp
    obtain ⟨q, hq, rfl⟩ := hp
    rw [hid q hq]
    exact h2 q hq
  · rw [List.pairwise_map]
    refine List.Pairwise.imp_of_mem ?_ h3
    intro a b ha hb hne
    rw [hid a ha, hid b hb]
    exact hne

/-- The store invariant survives filtering the rows. -/
theorem inv_filter (st : Store) (h : Inv st) (g : Product → Bool) :
    Inv ⟨st.products.filter g, st.nextId⟩ := by
  obtain ⟨h1, h2, h3⟩ := h
  exact ⟨fun p hp => h1 p (List.mem_of_mem_filter hp),
    fun p hp => h2 p (List.mem_of_mem_filter hp),
    List.Pairwise.sublist (List.filter_sublist _) h3⟩

/-- The store invariant survives appending a row with the fresh id and a
positive price while advancing the auto-increment counter. -/
theorem inv_append (st : Store) (h : Inv st) (nm : String) (pr : ℚ)
    (hpr : 0 < pr) :
    Inv ⟨st.products ++ [⟨st.nextId, nm, pr, true⟩], st.nextId + 1⟩ := by
  obtain ⟨h1, h2, h3⟩ := h
  refine ⟨?_, ?_, ?_⟩
  · intro p hp
    rw [List.mem_append] at hp
    rcases hp with hp | hp
    · exact h1 p hp
    · simp only [List.mem_singleton] at hp
      rw [hp]
      exact hpr
  · intro p hp
    rw [List.mem_append] at hp
    rcases hp with hp | hp
    · show p.id < st.nextId + 1
      have := h2 p hp
      omega
    · simp only [List.mem_singleton] at hp
      rw [hp]
      show st.nextId < st.nextId + 1
      omega
  · rw [List.pairwise_append]
    refine ⟨h3, List.pairwise_singleton _ _, ?_⟩
    intro a ha b hb
    simp only [List.mem_singleton] at hb
    rw [hb]
    show a.id ≠ st.nextId
    have := h2 a ha
    omega

/-- Unfolding of create when validation fails. -/
theorem createProduct_fail (st : Store) (b : Body)
    (h : ¬(nameErrors b ++ priceErrors b = [])) :
    createProduct st b =
      (⟨400, .errors (nameErrors b ++ priceErrors b)⟩, st) := by
  simp only [createProduct]
  rw [if_neg h]

/-- Unfolding of create when validation passes. -/
theorem createProduct_pass (st : Store) (b : Body)
    (h : nameErrors b ++ priceErrors b = []) :
    createProduct st b =
      (⟨201, .dataProduct ⟨st.nextId, toStr b.name, priceVal b.price, true⟩⟩,
       ⟨st.products ++ [⟨st.nextId, toStr b.name, priceVal b.price, true⟩],
        st.nextId + 1⟩) := by
  simp only [createProduct]
  rw [if_pos h]

/-- Unfolding of replace when validation fails. -/
theorem updateProduct_fail (st : Store) (idStr : String) (b : Body)
    (h : ¬(idErrors idStr ++ nameErrors b ++ priceErrors b ++
      availabilityErrors b = [])) :
    updateProduct st idStr b =
      (⟨400, .errors (idErrors idStr ++ nameErrors b ++ priceErrors b ++
        availabilityErrors b)⟩, st) := by
  simp only [updateProduct]
  rw [if_neg h]

/-- Unfolding of replace when validation passes and the id is absent. -/
theorem updateProduct_notFound (st : Store) (idStr : String) (b : Body)
    (he : idErrors idStr ++ nameErrors b ++ priceErrors b ++
      availabilityErrors b = [])
    (hl : lookup st (parseNum idStr) = none) :
    updateProduct st idStr b = (⟨404, .errorMsg msgNotFound⟩, st) := by
  simp only [updateProduct]
  rw [if_pos he, hl]

/-- Unfolding of replace when validation passes and the id is present. -/
theorem updateProduct_found (st : Store) (idStr : String) (b : Body)
    (p : Product)
    (he : idErrors idStr ++ nameErrors b ++ priceErrors b ++
      availabilityErrors b = [])
    (hl : lookup st (parseNum idStr) = some p) :
    updateProduct st idStr b =
      (⟨200, .dataProduct ⟨p.id, toStr b.name, priceVal b.price,
         availVal b.availability⟩⟩,
       ⟨st.products.map (fun q =>
          if q.id == parseNum idStr then
            ⟨p.id, toStr b.name, priceVal b.price, availVal b.availability⟩
          else q),
        st.nextId⟩) := by
  simp only [updateProduct]
  rw [if_pos he, hl]

/-- Unfolding of toggle when validation fails. -/
theorem updateAvailability_fail (st : Store) (idStr : String)
    (h : ¬(idErrors idStr = [])) :
    updateAvailability st idStr =
      (⟨400, .errors (idErrors idStr)⟩, st) := by
  simp only [updateAvailability]
  rw [if_neg h]

/-- Unfolding of toggle when validation passes and the id is absent. -/
theorem updateAvailability_notFound (st : Store) (idStr : String)
    (he : idErrors idStr = [])
    (hl : lookup st (parseNum idStr) = none) :
    updateAvailability st idStr = (⟨404, .errorMsg msgNotFound⟩, st) := by
  simp only [updateAvailability]
  rw [if_pos he, hl]

/-- Unfolding of toggle when validation passes and the id is present. -/
theorem updateAvailability_found (st : Store) (idStr : String) (p : Product)
    (he : idErrors idStr = [])
    (hl : lookup st (parseNum idStr) = some p) :
    updateAvailability st idStr =
      (⟨200, .dataProduct { p with availability := !p.availability }⟩,
       ⟨st.products.map (toggleRow (parseNum idStr)), st.nextId⟩) := by
  simp only [updateAvailability]
  rw [if_pos he, hl]

/-- Unfolding of delete when validation fails. -/
theorem deleteProduct_fail (st : Store) (idStr : String)
    (h : ¬(idErrors idStr = [])) :
    deleteProduct st idStr = (⟨400, .errors (idErrors idStr)⟩, st) := by
  simp only [deleteProduct]
  rw [if_neg h]

/-- Unfolding of delete when validation passes and the id is absent. -/
theorem deleteProduct_notFound (st : Store) (idStr : String)
    (he : idErrors idStr = [])
    (hl : lookup st (parseNum idStr) = none) :
    deleteProduct st idStr = (⟨404, .errorMsg msgNotFound⟩, st) := by
  simp only [deleteProduct]
  rw [if_pos he, hl]

/-- Unfolding of delete when validation passes and the id is present. -/
theorem deleteProduct_found (st : Store) (idStr : String) (p : Product)
    (he : idErrors idStr = [])
    (hl : lookup st (parseNum idStr) = some p) :
    deleteProduct st idStr =
      (⟨200, .dataStr msgDeleted⟩,
       ⟨st.products.filter (fun q => !(q.id == parseNum idStr)),
        st.nextId⟩) := by
  simp only [deleteProduct]
  rw [if_pos he, hl]

/-- Unfolding of get-by-id when validation fails. -/
theorem getProductById_fail (st : Store) (idStr : String)
    (h : ¬(idErrors idStr = [])) :
    getProductById st idStr = (⟨400, .errors (idErrors idStr)⟩, st) := by
  simp only [getProductById]
  rw [if_neg h]

/-- Unfolding of get-by-id when validation passes and the id is absent. -/
theorem getProductById_notFound (st : Store) (idStr : String)
    (he : idErrors idStr = [])
    (hl : lookup st (parseNum idStr) = none) :
    getProductById st idStr = (⟨404, .errorMsg msgNotFound⟩, st) := by
  simp only [getProductById]
  rw [if_pos he, hl]

/-- Unfolding of get-by-id when validation passes and the id is present. -/
theorem getProductById_found (st : Store) (idStr : String) (p : Product)
    (he : idErrors idStr = [])
    (hl : lookup st (parseNum idStr) = some p) :
    getProductById st idStr = (⟨200, .dataProduct p⟩, st) := by
  simp only [getProductById]
  rw [if_pos he, hl]

/-- The toggle never changes a row's id. -/
theorem toggleRow_id (i : Int) (q : Product) :
    (toggleRow i q).id = q.id := by
  by_cases hqi : (q.id == i) = true <;> simp [toggleRow, hqi]

/-- The toggle never changes a row's name. -/
theorem toggleRow_name (i : Int) (q : Product) :
    (toggleRow i q).name = q.name := by
  by_cases hqi : (q.id == i) = true <;> simp [toggleRow, hqi]

/-- The toggle never changes a row's price. -/
theorem toggleRow_price (i : Int) (q : Product) :
    (toggleRow i q).price = q.price := by
  by_cases hqi : (q.id == i) = true <;> simp [toggleRow, hqi]

/-- Toggling the same key twice restores a row exactly. -/
theorem toggleRow_invol (i : Int) (q : Product) :
    toggleRow i (toggleRow i q) = q := by
  cases q with
  | mk qid qname qprice qavail =>
      by_cases hqi : (qid == i) = true <;>
        simp [toggleRow, hqi, Bool.not_not]

/-- A successful primary-key lookup returns a row with that key. -/
theorem lookup_some_id (st : Store) (i : Int) (p : Product)
    (h : lookup st i = some p) : p.id = i := by
  rw [lookup] at h
  have hb := @List.find?_some Product (fun q => q.id == i) p st.products h
  exact eq_of_beq hb

/-- A key held by no row makes the lookup fail. -/
theorem lookup_none (st : Store) (i : Int)
    (habs : ∀ p ∈ st.products, p.id ≠ i) : lookup st i = none := by
  rw [lookup, List.find?_eq_none]
  intro x hx hbe
  exact habs x hx (eq_of_beq hbe)

/-- C1: every operation preserves the store invariant — stored prices stay
positive (create and replace validate the price, toggle and delete never
touch it), the id column is never mutated (replace and toggle keep it
unchanged, delete only removes rows), and ids are never reused (every
stored id stays below the auto-increment counter, the counter never
decreases, and create assigns exactly the counter value as the new id). -/
theorem C1_store_invariants (st : Store) (h : Inv st) :
    (∀ b, Inv (createProduct st b).2 ∧
       st.nextId ≤ (createProduct st b).2.nextId ∧
       ((createProduct st b).2 = st ∨
         (createProduct st b).2.products.map Product.id =
           st.products.map Product.id ++ [st.nextId])) ∧
    (∀ idStr b, Inv (updateProduct st idStr b).2 ∧
       (updateProduct st idStr b).2.nextId = st.nextId ∧
       (updateProduct st idStr b).2.products.map Product.id =
         st.products.map Product.id) ∧
    (∀ idStr, Inv (updateAvailability st idStr).2 ∧
       (updateAvailability st idStr).2.nextId = st.nextId ∧
       (updateAvailability st idStr).2.products.map
           (fun p => (p.id, p.name, p.price)) =
         st.products.map (fun p => (p.id, p.name, p.price))) ∧
    (∀ idStr, Inv (deleteProduct st idStr).2 ∧
       (deleteProduct st idStr).2.nextId = st.nextId ∧
       ((deleteProduct st idStr).2.products.map Product.id).Sublist
         (st.products.map Product.id)) := by
  refine ⟨?_, ?_, ?_, ?_⟩
  · intro b
    by_cases he : nameErrors b ++ priceErrors b = []
    · rw [createProduct_pass st b he]
      have hpr : 0 < priceVal b.price :=
        priceVal_pos b (List.append_eq_nil.mp he).2
      refine ⟨inv_append st h _ _ hpr, ?_, Or.inr ?_⟩
      · show st.nextId ≤ st.nextId + 1
        omega
      · simp
    · rw [createProduct_fail st b he]
      exact ⟨h, le_refl _, Or.inl rfl⟩
  · intro idStr b
    by_cases he : idErrors idStr ++ nameErrors b ++ priceErrors b ++
        availabilityErrors b = []
    · rcases hl : lookup st (parseNum idStr) with _ | p
      · rw [updateProduct_notFound st idStr b he hl]
        exact ⟨h, rfl, rfl⟩
      · rw [updateProduct_found st idStr b p he hl]
        have hpid : p.id = parseNum idStr := lookup_some_id st _ p hl
        simp only [List.append_eq_nil] at he
        have hprice : priceErrors b = [] := he.1.2
        have hid : ∀ q ∈ st.products,
            ((if q.id == parseNum idStr then
                (⟨p.id, toStr b.name, priceVal b.price,
                  availVal b.availability⟩ : Product)
              else q)).id = q.id := by
          intro q _hq
          by_cases hqi : (q.id == parseNum idStr) = true
          · rw [if_pos hqi]
            show p.id = q.id
            rw [hpid]
            exact (eq_of_beq hqi).symm
          · rw [if_neg hqi]
        have hpr2 : ∀ q ∈ st.products,
            0 < ((if q.id == parseNum idStr then
                (⟨p.id, toStr b.name, priceVal b.price,
                  availVal b.availability⟩ : Product)
              else q)).price := by
          intro q hq
          by_cases hqi : (q.id == parseNum idStr) = true
          · rw [if_pos hqi]
            exact priceVal_pos b hprice
          · rw [if_neg hqi]
            exact h.1 q hq
        exact ⟨inv_map st h _ hid hpr2, rfl, map_id_of_preserve _ _ hid⟩
    · rw [updateProduct_fail st idStr b he]
      exact ⟨h, rfl, rfl⟩
  · intro idStr
    by_cases he : idErrors idStr = []
    · rcases hl : lookup st (parseNum idStr) with _ | p
      · rw [updateAvailability_notFound st idStr he hl]
        exact ⟨h, rfl, rfl⟩
      · rw [updateAvailability_found st idStr p he hl]
        have hid : ∀ q ∈ st.products,
            (toggleRow (parseNum idStr) q).id = q.id :=
          fun q _ => toggleRow_id _ q
        have hpr2 : ∀ q ∈ st.products,
            0 < (toggleRow (parseNum idStr) q).price := by
          intro q hq
          rw [toggleRow_price]
          exact h.1 q hq
        refine ⟨inv_map st h _ hid hpr2, rfl, ?_⟩
        rw [List.map_map]
        refine List.map_congr_left ?_
        intro q _hq
        simp [Function.comp, toggleRow_id, toggleRow_name, toggleRow_price]
    · rw [updateAvailability_fail st idStr he]
      exact ⟨h, rfl, rfl⟩
  · intro idStr
    by_cases he : idErrors idStr = []
    · rcases hl : lookup st (parseNum idStr) with _ | p
      · rw [deleteProduct_notFound st idStr he hl]
        exact ⟨h, rfl, List.Sublist.refl _⟩
      · rw [deleteProduct_found st idStr p he hl]
        exact ⟨inv_filter st h _, rfl,
          List.Sublist.map _ (List.filter_sublist _)⟩
    · rw [deleteProduct_fail st idStr he]
      exact ⟨h, rfl, List.Sublist.refl _⟩

/-- Witness for C1: the invariant holds after creating a product in a
concrete invariant-satisfying store. -/
theorem C1_store_invariants_witness :
    Inv (createProduct ⟨[⟨1, "Monitor", 5, true⟩], 2⟩
      ⟨some (.str "Mouse"), some (.num 3), none⟩).2 :=
  ((C1_store_invariants ⟨[⟨1, "Monitor", 5, true⟩], 2⟩
      ⟨by decide, by decide, by decide⟩).1
    ⟨some (.str "Mouse"), some (.num 3), none⟩).1

/-- Primary-key lookup commutes with an id-preserving row map. -/
theorem lookup_map_preserve (l : List Product) (n : Int)
    (g : Product → Product) (hg : ∀ q, (g q).id = q.id) (i : Int) :
    lookup ⟨l.map g, n⟩ i = (lookup ⟨l, n⟩ i).map g := by
  rw [lookup, lookup]
  have hcomp : ((fun q : Product => q.id == i) ∘ g) =
      (fun q : Product => q.id == i) := by
    funext q
    show ((g q).id == i) = (q.id == i)
    rw [hg q]
  rw [List.find?_map, hcomp]

/-- C2 counterexample: a PUT whose path id is the non-integer "abc" and
whose body is empty answers 400 with six errors — the id error followed by
the five body errors — not exactly one error. -/
theorem C2_counterexample :
    (updateProduct ⟨[], 1⟩ "abc" ⟨none, none, none⟩).1 =
      ⟨400, .errors [msgIdInvalid, msgNameEmpty, msgPriceNumeric,
        msgPriceEmpty, msgPricePositive, msgAvailabilityInvalid]⟩ ∧
    ¬([msgIdInvalid, msgNameEmpty, msgPriceNumeric, msgPriceEmpty,
        msgPricePositive, msgAvailabilityInvalid].length = 1) := by
  exact ⟨by decide, by decide⟩

/-- C2 (amended): for GET, PATCH and DELETE with a non-integer path id,
and for PUT with a non-integer path id and a body passing validation, the
response is 400 with exactly one error, the id-invalid message; the store
is returned unchanged and the response does not depend on the store's
contents, so the not-found check is never reached. -/
theorem C2_invalid_id (st : Store) (idStr : String)
    (hid : isIntStr idStr = false) (b : Body)
    (hb : nameErrors b = [] ∧ priceErrors b = [] ∧
      availabilityErrors b = []) :
    getProductById st idStr = (⟨400, .errors [msgIdInvalid]⟩, st) ∧
    updateProduct st idStr b = (⟨400, .errors [msgIdInvalid]⟩, st) ∧
    updateAvailability st idStr = (⟨400, .errors [msgIdInvalid]⟩, st) ∧
    deleteProduct st idStr = (⟨400, .errors [msgIdInvalid]⟩, st) := by
  have herr : idErrors idStr = [msgIdInvalid] := by
    rw [idErrors, hid]
    simp
  have hne : ¬(idErrors idStr = []) := by
    rw [herr]
    simp
  obtain ⟨hn, hp, ha⟩ := hb
  refine ⟨?_, ?_, ?_, ?_⟩
  · rw [getProductById_fail st idStr hne, herr]
  · have hne4 : ¬(idErrors idStr ++ nameErrors b ++ priceErrors b ++
        availabilityErrors b = []) := by
      rw [herr, hn, hp, ha]
      simp
    rw [updateProduct_fail st idStr b hne4, herr, hn, hp, ha]
    rfl
  · rw [updateAvailability_fail st idStr hne, herr]
  · rw [deleteProduct_fail st idStr hne, herr]

/-- Witness for C2: the amended statement evaluated at id "abc" and a
valid body in a concrete store. -/
theorem C2_invalid_id_witness :
    getProductById ⟨[], 1⟩ "abc" =
      (⟨400, .errors [msgIdInvalid]⟩, ⟨[], 1⟩) :=
  (C2_invalid_id ⟨[], 1⟩ "abc" (by decide)
    ⟨some (.str "Teclado"), some (.num 200), some (.bool true)⟩
    ⟨by decide, by decide, by decide⟩).1

/-- C3: a GET, PATCH or DELETE whose integer path id is held by no stored
product — and a PUT in the same situation whose body passes validation —
answers 404 with error `Producto no encontrado`, after validation and with
the store returned unchanged (no mutation happens). -/
theorem C3_not_found (st : Store) (idStr : String) (b : Body)
    (hid : isIntStr idStr = true)
    (habs : ∀ p ∈ st.products, p.id ≠ parseNum idStr)
    (hb : nameErrors b = [] ∧ priceErrors b = [] ∧
      availabilityErrors b = []) :
    getProductById st idStr = (⟨404, .errorMsg msgNotFound⟩, st) ∧
    updateProduct st idStr b = (⟨404, .errorMsg msgNotFound⟩, st) ∧
    updateAvailability st idStr = (⟨404, .errorMsg msgNotFound⟩, st) ∧
    deleteProduct st idStr = (⟨404, .errorMsg msgNotFound⟩, st) := by
  have hl : lookup st (parseNum idStr) = none := lookup_none st _ habs
  have he : idErrors idStr = [] := idErrors_nil idStr hid
  obtain ⟨hn, hp, ha⟩ := hb
  have he4 : idErrors idStr ++ nameErrors b ++ priceErrors b ++
      availabilityErrors b = [] := by
    rw [he, hn, hp, ha]
    rfl
  exact ⟨getProductById_notFound st idStr he hl,
    updateProduct_notFound st idStr b he4 hl,
    updateAvailability_notFound st idStr he hl,
    deleteProduct_notFound st idStr he hl⟩

/-- Witness for C3: GET on the absent id 2000 in a concrete one-product
store answers 404. -/
theorem C3_not_found_witness :
    getProductById ⟨[⟨1, "Monitor", 5, true⟩], 2⟩ "2000" =
      (⟨404, .errorMsg msgNotFound⟩, ⟨[⟨1, "Monitor", 5, true⟩], 2⟩) :=
  (C3_not_found ⟨[⟨1, "Monitor", 5, true⟩], 2⟩ "2000"
    ⟨some (.str "Monitor Curvo"), some (.num 300), some (.bool true)⟩
    (by decide) (by decide) ⟨by decide, by decide, by decide⟩).1

/-- C4: a PATCH on an existing product answers 200 with that product's
availability complemented and its id, name and price unchanged; the store
keeps every other row untouched, and a second PATCH on the same id
restores the original store exactly (the toggle is an involution). -/
theorem C4_patch_flip (st : Store) (idStr : String) (p : Product)
    (hid : isIntStr idStr = true)
    (hp : lookup st (parseNum idStr) = some p) :
    (updateAvailability st idStr).1 =
      ⟨200, .dataProduct { p with availability := !p.availability }⟩ ∧
    (updateAvailability st idStr).2.products =
      st.products.map (toggleRow (parseNum idStr)) ∧
    (updateAvailability st idStr).2.nextId = st.nextId ∧
    (updateAvailability (updateAvailability st idStr).2 idStr).2 = st := by
  have he : idErrors idStr = [] := idErrors_nil idStr hid
  rw [updateAvailability_found st idStr p he hp]
  refine ⟨rfl, rfl, rfl, ?_⟩
  have hl2 : lookup ⟨st.products.map (toggleRow (parseNum idStr)),
      st.nextId⟩ (parseNum idStr) =
      some (toggleRow (parseNum idStr) p) := by
    rw [lookup_map_preserve st.products st.nextId _
      (fun q => toggleRow_id _ q) (parseNum idStr)]
    have : lookup ⟨st.products, st.nextId⟩ (parseNum idStr) = some p := by
      rw [lookup]
      rw [lookup] at hp
      exact hp
    rw [this]
    rfl
  rw [updateAvailability_found _ idStr _ he hl2]
  show (⟨(st.products.map (toggleRow (parseNum idStr))).map
      (toggleRow (parseNum idStr)), st.nextId⟩ : Store) = st
  rw [List.map_map]
  have hmap : st.products.map
      (toggleRow (parseNum idStr) ∘ toggleRow (parseNum idStr)) =
      st.products.map id :=
    List.map_congr_left fun q _ => toggleRow_invol (parseNum idStr) q
  rw [hmap, List.map_id]

/-- Witness for C4: toggling the availability of the concrete product with
id 1 twice restores the store. -/
theorem C4_patch_flip_witness :
    (updateAvailability
        (updateAvailability ⟨[⟨1, "Monitor", 5, true⟩], 2⟩ "1").2 "1").2 =
      ⟨[⟨1, "Monitor", 5, true⟩], 2⟩ :=
  (C4_patch_flip ⟨[⟨1, "Monitor", 5, true⟩], 2⟩ "1"
    ⟨1, "Monitor", 5, true⟩ (by decide) (by decide)).2.2.2

/-- C5: a create request with a non-empty string name and a numeric price
greater than zero passes validation and answers 201 with the new record,
whose id is the auto-increment counter value — fresh, carried by no stored
product — and whose availability defaults to true; the record is appended
and the counter advanced. -/
theorem C5_create (st : Store) (h : Inv st) (nm : String) (pr : Int)
    (hnm : nm ≠ "") (hpr : 0 < pr) (av : Option JVal) :
    createProduct st ⟨some (.str nm), some (.num pr), av⟩ =
      (⟨201, .dataProduct ⟨st.nextId, nm, pr, true⟩⟩,
       ⟨st.products ++ [⟨st.nextId, nm, pr, true⟩], st.nextId + 1⟩) ∧
    ∀ p ∈ st.products, p.id ≠ st.nextId := by
  have hname : nameErrors ⟨some (.str nm), some (.num pr), av⟩ = [] := by
    simp only [nameErrors, toStr]
    rw [if_neg hnm]
  have hprice : priceErrors ⟨some (.str nm), some (.num pr), av⟩ = [] := by
    simp only [priceErrors, toStr]
    have h1 : isNumericStr (intToStr pr) = true := isNumericStr_intToStr pr
    have h2 : ¬(intToStr pr = "") := intToStr_ne_empty pr
    have h3 : jsGt0 (some (JVal.num pr)) = true := decide_eq_true hpr
    rw [if_pos h1, if_neg h2, if_pos h3]
    rfl
  refine ⟨?_, ?_⟩
  · rw [createProduct_pass st _ (by rw [hname, hprice]; rfl)]
    rfl
  · intro p hp
    have := h.2.1 p hp
    omega

/-- Witness for C5: creating the test product in a concrete store. -/
theorem C5_create_witness :
    createProduct ⟨[⟨1, "Monitor", 5, true⟩], 2⟩
        ⟨some (.str "Mouse - Testing"), some (.num 50), none⟩ =
      (⟨201, .dataProduct ⟨2, "Mouse - Testing", 50, true⟩⟩,
       ⟨[⟨1, "Monitor", 5, true⟩, ⟨2, "Mouse - Testing", 50, true⟩], 3⟩) :=
  (C5_create ⟨[⟨1, "Monitor", 5, true⟩], 2⟩
    ⟨by decide, by decide, by decide⟩ "Mouse - Testing" 50
    (by decide) (by decide) none).1

/-- C6: an empty create body answers 400 with exactly the four validation
errors, in rule declaration order — name-empty, price-numeric,
price-empty, price-positive — and the create handler never runs: the
store comes back unchanged. -/
theorem C6_empty_create_body (st : Store) :
    createProduct st ⟨none, none, none⟩ =
      (⟨400, .errors [msgNameEmpty, msgPriceNumeric, msgPriceEmpty,
        msgPricePositive]⟩, st) := by
  have hne : ¬(nameErrors ⟨none, none, none⟩ ++
      priceErrors ⟨none, none, none⟩ = []) := by decide
  rw [createProduct_fail st _ hne]
  rfl

/-- C7 counterexamples: the empty string is a non-numeric string price yet
yields three errors with a non-empty name (the empty-price rule fails
too), and "1e3" is a non-numeric string price — the validator regex has no
exponents — yet yields a single error, because its ToNumber coercion is
1000 and the positivity rule passes. -/
theorem C7_counterexample :
    ((createProduct ⟨[], 1⟩
        ⟨some (.str "Monitor Curvo"), some (.str ""), none⟩).1 =
      ⟨400, .errors [msgPriceNumeric, msgPriceEmpty, msgPricePositive]⟩ ∧
     ¬([msgPriceNumeric, msgPriceEmpty, msgPricePositive].length = 2)) ∧
    ((createProduct ⟨[], 1⟩
        ⟨some (.str "Monitor Curvo"), some (.str "1e3"), none⟩).1 =
      ⟨400, .errors [msgPriceNumeric]⟩ ∧
     ¬([msgPriceNumeric].length = 2)) := by
  exact ⟨⟨by decide, by decide⟩, ⟨by decide, by decide⟩⟩

/-- C7 (amended): a create request with a non-empty name and a non-empty
string price that the numeric rule rejects and whose JS numeric coercion
is not greater than zero answers 400 with exactly two errors for the
price field — the numeric rule's and the positivity rule's messages —
because the chained rules are evaluated independently, not
short-circuited. -/
theorem C7_nonnumeric_price (st : Store) (nm s : String) (av : Option JVal)
    (hnm : nm ≠ "") (hs : s ≠ "") (hnum : isNumericStr s = false)
    (hg : jsGt0 (some (.str s)) = false) :
    createProduct st ⟨some (.str nm), some (.str s), av⟩ =
      (⟨400, .errors [msgPriceNumeric, msgPricePositive]⟩, st) := by
  have hname : nameErrors ⟨some (.str nm), some (.str s), av⟩ = [] := by
    simp only [nameErrors, toStr]
    rw [if_neg hnm]
  have hprice : priceErrors ⟨some (.str nm), some (.str s), av⟩ =
      [msgPriceNumeric, msgPricePositive] := by
    simp only [priceErrors, toStr]
    have h1 : ¬(isNumericStr s = true) := by
      rw [hnum]
      decide
    have h3 : ¬(jsGt0 (some (JVal.str s)) = true) := by
      rw [hg]
      decide
    rw [if_neg h1, if_neg hs, if_neg h3]
    rfl
  have hne : ¬(nameErrors ⟨some (.str nm), some (.str s), av⟩ ++
      priceErrors ⟨some (.str nm), some (.str s), av⟩ = []) := by
    rw [hname, hprice]
    simp
  rw [createProduct_fail st _ hne, hname, hprice]
  rfl

/-- Witness for C7 (amended): price "hola" with a non-empty name gives
exactly the two price errors. -/
theorem C7_nonnumeric_price_witness :
    createProduct ⟨[], 1⟩
        ⟨some (.str "Monitor Curvo"), some (.str "hola"), none⟩ =
      (⟨400, .errors [msgPriceNumeric, msgPricePositive]⟩, ⟨[], 1⟩) :=
  C7_nonnumeric_price ⟨[], 1⟩ "Monitor Curvo" "hola" none
    (by decide) (by decide) (by decide) (by decide)

/-- C8: a PUT with an integer path id and an empty body answers 400 with
exactly five errors — one for the name, three for the price, one for the
availability, in declaration order — and the replace handler never runs:
the store comes back unchanged whether or not the id exists. -/
theorem C8_put_empty_body (st : Store) (idStr : String)
    (hid : isIntStr idStr = true) :
    updateProduct st idStr ⟨none, none, none⟩ =
      (⟨400, .errors [msgNameEmpty, msgPriceNumeric, msgPriceEmpty,
        msgPricePositive, msgAvailabilityInvalid]⟩, st) := by
  have he : idErrors idStr = [] := idErrors_nil idStr hid
  have hne : ¬(idErrors idStr ++ nameErrors ⟨none, none, none⟩ ++
      priceErrors ⟨none, none, none⟩ ++
      availabilityErrors ⟨none, none, none⟩ = []) := by
    rw [he]
    decide
  rw [updateProduct_fail st idStr _ hne, he]
  rfl

/-- Witness for C8: PUT of an empty body at id "1" in an empty store. -/
theorem C8_put_empty_body_witness :
    updateProduct ⟨[], 1⟩ "1" ⟨none, none, none⟩ =
      (⟨400, .errors [msgNameEmpty, msgPriceNumeric, msgPriceEmpty,
        msgPricePositive, msgAvailabilityInvalid]⟩, ⟨[], 1⟩) :=
  C8_put_empty_body ⟨[], 1⟩ "1" (by decide)

/-- C9: DELETE on an existing id answers 200 with data
`Producto Eliminado` and removes the record permanently (a hard delete:
its row is filtered out, all others kept, the counter untouched), so a
subsequent GET on the same id answers 404. -/
theorem C9_delete (st : Store) (idStr : String) (p : Product)
    (hid : isIntStr idStr = true)
    (hp : lookup st (parseNum idStr) = some p) :
    deleteProduct st idStr =
      (⟨200, .dataStr msgDeleted⟩,
       ⟨st.products.filter (fun q => !(q.id == parseNum idStr)),
        st.nextId⟩) ∧
    getProductById (deleteProduct st idStr).2 idStr =
      (⟨404, .errorMsg msgNotFound⟩, (deleteProduct st idStr).2) := by
  have he : idErrors idStr = [] := idErrors_nil idStr hid
  rw [deleteProduct_found st idStr p he hp]
  refine ⟨rfl, ?_⟩
  have hl2 : lookup ⟨st.products.filter
      (fun q => !(q.id == parseNum idStr)), st.nextId⟩
      (parseNum idStr) = none := by
    rw [lookup, List.find?_eq_none]
    intro x hx hc
    have hfx := (List.mem_filter.mp hx).2
    rw [hc] at hfx
    exact absurd hfx (by decide)
  exact getProductById_notFound _ idStr he hl2

/-- Witness for C9: deleting the only product of a concrete store. -/
theorem C9_delete_witness :
    deleteProduct ⟨[⟨1, "Monitor", 5, true⟩], 2⟩ "1" =
      (⟨200, .dataStr msgDeleted⟩, ⟨[], 2⟩) :=
  (C9_delete ⟨[⟨1, "Monitor", 5, true⟩], 2⟩ "1" ⟨1, "Monitor", 5, true⟩
    (by decide) (by decide)).1

/-- C10: the id path validation accepts every integer, zero and negative
integers included: `isInt` holds of the decimal rendering of every
integer, and a request addressing a non-positive integer id held by no
product passes validation and reaches the existence check, answering 404
— not 400 — on all four id-addressed routes (the PUT given a body passing
validation). -/
theorem C10_nonpositive_int_id (st : Store) (n : Int) (hn : n ≤ 0)
    (habs : ∀ p ∈ st.products, p.id ≠ n) :
    (∀ m : Int, isIntStr (intToStr m) = true) ∧
    getProductById st (intToStr n) =
      (⟨404, .errorMsg msgNotFound⟩, st) ∧
    updateProduct st (intToStr n)
        ⟨some (.str "Teclado"), some (.num 200), some (.bool true)⟩ =
      (⟨404, .errorMsg msgNotFound⟩, st) ∧
    updateAvailability st (intToStr n) =
      (⟨404, .errorMsg msgNotFound⟩, st) ∧
    deleteProduct st (intToStr n) =
      (⟨404, .errorMsg msgNotFound⟩, st) := by
  have habs' : ∀ p ∈ st.products, p.id ≠ parseNum (intToStr n) := by
    intro p hp
    rw [parseNum_intToStr]
    exact habs p hp
  have he : idErrors (intToStr n) = [] :=
    idErrors_nil _ (isIntStr_intToStr n)
  have hl : lookup st (parseNum (intToStr n)) = none :=
    lookup_none st _ habs'
  have he4 : idErrors (intToStr n) ++
      nameErrors ⟨some (.str "Teclado"), some (.num 200),
        some (.bool true)⟩ ++
      priceErrors ⟨some (.str "Teclado"), some (.num 200),
        some (.bool true)⟩ ++
      availabilityErrors ⟨some (.str "Teclado"), some (.num 200),
        some (.bool true)⟩ = [] := by
    rw [he]
    decide
  exact ⟨isIntStr_intToStr,
    getProductById_notFound st _ he hl,
    updateProduct_notFound st _ _ he4 hl,
    updateAvailability_notFound st _ he hl,
    deleteProduct_notFound st _ he hl⟩

/-- Witness for C10: GET at the rendered id "-1" in a concrete store
answers 404 rather than a validation failure. -/
theorem C10_nonpositive_int_id_witness :
    getProductById ⟨[⟨1, "Monitor", 5, true⟩], 2⟩ (intToStr (-1)) =
      (⟨404, .errorMsg msgNotFound⟩, ⟨[⟨1, "Monitor", 5, true⟩], 2⟩) :=
  (C10_nonpositive_int_id ⟨[⟨1, "Monitor", 5, true⟩], 2⟩ (-1)
    (by decide) (by decide)).2.1

end ProductApi
